import Mathlib

/-!
CatClan Monitor — verification of the balance store and chart aggregation.

Shallow embedding of the repository's core logic:

* `utils/data_storage.py` — `BalanceStorage.save_balance`, `get_balance_history`
* `app6.py` / `app.py`    — `update_graph` chart aggregation pipeline
* `utils/binance_api.py`  — `get_futures_positions`
* `import_historical_data.py` — `add_historical_data`, `import_historical_data`

Modelling conventions:

* Time is a single `Nat` of seconds; the calendar date of a timestamp is
  `ts / 86400` (SQL `date(timestamp)` truncates to the day).  Calendar days
  are encoded by `dateCode y m d = (y*16 + m)*32 + d`, which is strictly
  monotone in (y, m, d) for valid dates, so datetime comparisons in the
  source correspond to `Nat` comparisons here.  Midnight of day `d` is
  `d * 86400`.
* Monetary values (`REAL` columns, balances, prices) are `ℚ`.
* SQL `ORDER BY date` and pandas `sort_values('date')` are modelled as the
  stable `List.insertionSort` on the date key (rows reach the sort already
  in insertion order, and ties on the date key keep insertion order).
* `try/except sqlite3.Error` blocks are modelled by a function taking the
  backend outcome (`Except SqlError Unit`) and returning `Except` at the
  public boundary: an error the clause matches yields `.ok` (the call
  returns normally).  On the read path, `pd.read_sql` re-raises execution
  failures wrapped as pandas `DatabaseError`, which is not a
  `sqlite3.Error`, so the clause does not match it and the wrapper escapes.
-/

namespace CatClan

/-- Seconds in one day; SQL `date(timestamp)` truncates a timestamp to this. -/
def secondsPerDay : Nat := 86400

/-- A timestamp: seconds on a linear clock. -/
abbrev Timestamp := Nat

/-- Calendar date of a timestamp (`date(timestamp)` in SQLite). -/
def dateOf (ts : Timestamp) : Nat := ts / secondsPerDay

/-- Order-preserving encoding of a calendar date `y-m-d` (valid dates have
`m ≤ 12 < 16` and `d ≤ 31 < 32`, so the encoding is strictly monotone in the
chronological order). -/
def dateCode (y m d : Nat) : Nat := (y * 16 + m) * 32 + d

/-- Midnight of calendar day `d` (what `pd.to_datetime` makes of a
`YYYY-MM-DD` string). -/
def midnight (d : Nat) : Timestamp := d * secondsPerDay

/-- One row of the `balance_history` table, as inserted by
`BalanceStorage.save_balance` (`id` is the position in the list). -/
structure Row where
  ts : Timestamp
  spot_balance : ℚ
  futures_balance : ℚ
  total_balance : ℚ
deriving DecidableEq, Repr

/-- One record of the frame returned by `get_balance_history`:
`SELECT date(timestamp) as date, spot_balance, futures_balance`. -/
structure QRow where
  date : Nat
  spot_balance : ℚ
  futures_balance : ℚ
deriving DecidableEq, Repr

/-- The column list of the `get_balance_history` SELECT. -/
def getBalanceHistoryColumns : List String :=
  ["date", "spot_balance", "futures_balance"]

/-- Errors raised by the sqlite backend (`sqlite3.Error`). -/
inductive SqlError where
  | lockTimeout
  | diskError
deriving DecidableEq, Repr

/-- `BalanceStorage.save_balance` (success path): one INSERT appending a row
with `timestamp = now()` and `total_balance = spot_total + futures_total`. -/
def saveBalance (st : List Row) (now : Timestamp) (spotTotal futuresTotal : ℚ) :
    List Row :=
  st ++ [⟨now, spotTotal, futuresTotal, spotTotal + futuresTotal⟩]

/-- `save_balance` including its `try/except sqlite3.Error`: a backend error
is logged and the call returns normally (`.ok`) with the store unchanged. -/
def saveBalanceRun (st : List Row) (now : Timestamp) (spotTotal futuresTotal : ℚ)
    (dbOutcome : Except SqlError Unit) : Except SqlError (List Row) :=
  match dbOutcome with
  | .ok _ => .ok (saveBalance st now spotTotal futuresTotal)
  | .error _ => .ok st

/-- `get_balance_history` (success path): rows with
`timestamp >= datetime('now', '-days days')`, ordered by the projected
`date` column, projected to `(date, spot_balance, futures_balance)`. -/
def getBalanceHistory (st : List Row) (now : Timestamp) (days : Nat) :
    List QRow :=
  ((st.filter (fun r => now - days * secondsPerDay ≤ r.ts)).insertionSort
      (fun a b => dateOf a.ts ≤ dateOf b.ts)).map
    (fun r => ⟨dateOf r.ts, r.spot_balance, r.futures_balance⟩)

/-- A Python exception crossing the storage layer: either a raw
`sqlite3.Error` (raised by `conn.execute`), or pandas' `DatabaseError`
(an `OSError` subclass that `pd.read_sql` raises in place of the underlying
sqlite error — it is not a `sqlite3.Error`). -/
inductive PyExc where
  | sqliteError (e : SqlError)
  | pandasDatabaseError (e : SqlError)
deriving DecidableEq, Repr

/-- `isinstance(exc, sqlite3.Error)` — what an `except sqlite3.Error`
clause matches. -/
def isSqliteError : PyExc → Bool
  | .sqliteError _ => true
  | .pandasDatabaseError _ => false

/-- `pd.read_sql` on the shared connection: a successful execution returns
the frame; an execution failure (lock timeout, disk error) is re-raised
wrapped as pandas `DatabaseError`. -/
def readSql (st : List Row) (now : Timestamp) (days : Nat)
    (dbOutcome : Except SqlError Unit) : Except PyExc (List QRow) :=
  match dbOutcome with
  | .ok _ => .ok (getBalanceHistory st now days)
  | .error e => .error (.pandasDatabaseError e)

/-- `get_balance_history` including its `try/except sqlite3.Error`: the
clause catches only exceptions that are `sqlite3.Error` instances (logging
and returning the empty frame); pandas' `DatabaseError` wrapper is not one,
so a failed `pd.read_sql` escapes to the caller. -/
def getBalanceHistoryRun (st : List Row) (now : Timestamp) (days : Nat)
    (dbOutcome : Except SqlError Unit) : Except PyExc (List QRow) :=
  match readSql st now days dbOutcome with
  | .ok l => .ok l
  | .error exc => if isSqliteError exc then .ok [] else .error exc

/-- A sequence of `save_balance` calls against an initially empty store. -/
def runSaves (saves : List (Timestamp × ℚ × ℚ)) : List Row :=
  saves.foldl (fun st s => saveBalance st s.1 s.2.1 s.2.2) []

/-! ## Chart aggregation (`update_graph` in `app6.py`) -/

/-- The configured floor date: `start_date = datetime(2025, 8, 1)`. -/
def startDay : Nat := dateCode 2025 8 1

/-- `df = df[df['date'] >= start_date]` — the floor-date filter (`df['date']`
is midnight of the snapshot's calendar day, so the comparison is on days). -/
def floorFilter (l : List QRow) : List QRow :=
  l.filter (fun q => startDay ≤ q.date)

/-- `df = df.sort_values('date')` — stable sort on the date key. -/
def sortByDate (l : List QRow) : List QRow :=
  l.insertionSort (fun a b => a.date ≤ b.date)

/-- `df_filtered = df[df['futures_balance'] > 0]` with the whole-frame
fallback `if df_filtered.empty: df_filtered = df.copy()`.  Note: the filter
and the emptiness guard are global, not per day-group. -/
def zeroFilter (l : List QRow) : List QRow :=
  let pos := l.filter (fun q => 0 < q.futures_balance)
  if pos.isEmpty then l else pos

/-- The frame fed to `groupby('date_only')` in `update_graph`. -/
def chartInput (l : List QRow) : List QRow :=
  zeroFilter (sortByDate (floorFilter l))

/-- The distinct group keys, ascending (pandas `groupby` sorts keys). -/
def daysOf (l : List QRow) : List Nat :=
  ((l.map QRow.date).dedup).insertionSort (· ≤ ·)

/-- The rows of one day-group, in frame order. -/
def dayGroup (l : List QRow) (d : Nat) : List QRow :=
  l.filter (fun q => q.date = d)

/-- pandas `agg min` on a group (0 never observed: groups are non-empty). -/
def listMin : List ℚ → ℚ
  | [] => 0
  | x :: xs => xs.foldl min x

/-- pandas `agg max` on a group (0 never observed: groups are non-empty). -/
def listMax : List ℚ → ℚ
  | [] => 0
  | x :: xs => xs.foldl max x

/-- One row of `daily_stats`: the aggregation output for one day.  The frame
also carries the redundant `date_only` key, identical to `date`. -/
structure DailyRecord where
  date : Nat
  min_balance : ℚ
  max_balance : ℚ
  open_balance : ℚ
  close_balance : ℚ
deriving DecidableEq, Repr

/-- `groupby('date_only').agg(min, max, first, last)` for one key. -/
def mkDaily (l : List QRow) (d : Nat) : DailyRecord :=
  let g := (dayGroup l d).map QRow.futures_balance
  ⟨d, listMin g, listMax g, g.headD 0, g.getLastD 0⟩

/-- `daily_stats`: one record per distinct day of the filtered frame,
ascending by date (the trailing `sort_values('date')` re-sorts a frame the
grouping already produced in ascending key order). -/
def dailyStats (l : List QRow) : List DailyRecord :=
  (daysOf (chartInput l)).map (mkDaily (chartInput l))

/-- The lookback passed to `get_balance_history` by `update_graph`
(`period_days or 9999`). -/
def periodLookback : Option Nat → Nat
  | some d => d
  | none => 9999

/-- The data path of `update_graph` (`app6.py`): query the store, return the
"no data" figure (`none`) when the query result is empty, otherwise
aggregate; when the aggregation ends with zero day-groups, substitute the
single synthetic all-zero record dated `now`. -/
def updateGraphData (st : List Row) (now : Timestamp) (periodDays : Option Nat) :
    Option (List DailyRecord) :=
  let df := getBalanceHistory st now (periodLookback periodDays)
  if df.isEmpty then none
  else
    let records := dailyStats df
    some (if records.isEmpty then [⟨dateOf now, 0, 0, 0, 0⟩] else records)

/-! ## Futures positions (`get_futures_positions` in `utils/binance_api.py`) -/

/-- One raw position dict from `futures_position_information`, after the
`float(...)` conversions of the happy parse path (a position whose fields
fail to parse is skipped by the inner `try/except` and is out of scope of
the claims). -/
structure RawPos where
  symbol : String
  positionAmt : ℚ
  entryPrice : ℚ
  unRealizedProfit : ℚ
  leverage : ℚ
  positionSide : String
deriving DecidableEq, Repr

/-- One entry of `valid_positions`. -/
structure PositionView where
  symbol : String
  positionAmt : ℚ
  positionSide : String
  unRealizedProfit : ℚ
  entryPrice : ℚ
  markPrice : ℚ
  usdtValue : ℚ
  roe : ℚ
  leverage : Int
deriving DecidableEq, Repr

/-- Python `int()` on a rational: truncation toward zero. -/
def ratTrunc (q : ℚ) : Int := q.num / (q.den : Int)

/-- Python `abs()` on a rational (an executable spelling of `|·|`). -/
def ratAbs (q : ℚ) : ℚ := if q < 0 then -q else q

lemma ratAbs_eq_abs (q : ℚ) : ratAbs q = |q| := by
  by_cases h : q < 0
  · rw [ratAbs, if_pos h, abs_of_neg h]
  · rw [ratAbs, if_neg h, abs_of_nonneg (not_lt.mp h)]

/-- `get_futures_positions`: drop zero-amount positions, look the mark price
up with default 0, and build the view.  `if entry_price and amount else 0`
is Python float truthiness: both non-zero; `int(leverage) if leverage else 1`
likewise. -/
def getFuturesPositions (positions : List RawPos) (prices : List (String × ℚ)) :
    List PositionView :=
  positions.filterMap (fun pos =>
    if pos.positionAmt = 0 then none
    else
      let markPrice := ((prices.lookup pos.symbol).getD 0)
      some
        { symbol := pos.symbol
          positionAmt := pos.positionAmt
          positionSide := pos.positionSide
          unRealizedProfit := pos.unRealizedProfit
          entryPrice := pos.entryPrice
          markPrice := markPrice
          usdtValue := ratAbs pos.positionAmt * markPrice
          roe :=
            if pos.entryPrice ≠ (0 : ℚ) ∧ pos.positionAmt ≠ (0 : ℚ) then
              pos.unRealizedProfit / (ratAbs pos.positionAmt * pos.entryPrice) * 100
            else 0
          leverage := if pos.leverage ≠ (0 : ℚ) then ratTrunc pos.leverage else 1 })

/-! ## Historical importer (`import_historical_data.py`) -/

/-- Is there a row on calendar day `d`?
(`SELECT 1 FROM balance_history WHERE date(timestamp) = date(?)`) -/
def hasDate (st : List Row) (d : Nat) : Bool :=
  st.any (fun r => dateOf r.ts = d)

/-- `HistoricalDataImporter.add_historical_data`: insert a midnight-stamped
row only when no existing row shares the calendar date; `true` iff
inserted. -/
def addHistoricalData (st : List Row) (d : Nat) (futuresBalance spotBalance : ℚ) :
    List Row × Bool :=
  if hasDate st d then (st, false)
  else (st ++ [⟨midnight d, spotBalance, futuresBalance,
                spotBalance + futuresBalance⟩], true)

/-- The loop body of `import_historical_data`: each parsed `(date, futures)`
pair is handed to `add_historical_data` with `spot_balance = 0`. -/
def importHistoricalData (st : List Row) (data : List (Nat × ℚ)) : List Row :=
  data.foldl (fun s p => (addHistoricalData s p.1 p.2 0).1) st

/-- Number of rows of the store on calendar day `d`. -/
def countDate (st : List Row) (d : Nat) : Nat :=
  (st.filter (fun r => dateOf r.ts = d)).length

/-! ## Concrete fixtures -/

/-- Two snapshots on consecutive days past the floor: day 1 has a positive
futures balance, day 2 only a zero one. -/
def exC1 : List QRow := [⟨startDay, 0, 100⟩, ⟨startDay + 1, 0, 0⟩]

/-- 2025-08-01, 01:00. -/
def ts0 : Timestamp := midnight startDay + 3600

/-! ## Theorems -/

set_option maxRecDepth 100000

/-- Claim C1, counterexample.  The zero-balance filter of `update_graph` is
not applied per day-group: with one positive snapshot on 2025-08-01 and one
zero snapshot on 2025-08-02, the second day has a snapshot surviving the
floor filter, yet the aggregation output contains no record for it — the
day is dropped because another day had a positive snapshot. -/
theorem c1_zero_filter_not_per_group :
    (∃ q ∈ floorFilter exC1, q.date = startDay + 1) ∧
    (dailyStats exC1).map DailyRecord.date = [startDay] ∧
    ¬ ∃ r ∈ dailyStats exC1, r.date = startDay + 1 := by decide

/-- Claim C2, counterexample.  `get_balance_history` selects only
`date, spot_balance, futures_balance`: the returned records carry no
`total_balance` field, contrary to the claim; concretely, a store built by
one `save(3, 4)` call queried within the lookback returns the single record
`(2025-08-01, 3, 4)`. -/
theorem c2_no_total_balance_column :
    "total_balance" ∉ getBalanceHistoryColumns ∧
    getBalanceHistory (runSaves [(ts0, 3, 4)]) (ts0 + 3600) 30 =
      [⟨startDay, 3, 4⟩] := by decide

/-- Claim C3, counterexample.  On an empty input sequence `update_graph`
returns the "no data" figure (`none`), not the single synthetic zero record
dated "now" that the claim requires. -/
theorem c3_empty_input_no_synthetic_record :
    updateGraphData [] (midnight (dateCode 2025 8 10)) (some 30) = none ∧
    (none : Option (List DailyRecord)) ≠
      some [⟨dateCode 2025 8 10, 0, 0, 0, 0⟩] := by decide

/-- Claim C5, code evaluated at the failing input.  A lock timeout raised
inside the read is re-raised by `pd.read_sql` as pandas `DatabaseError`,
which the `except sqlite3.Error` clause does not match, so the exception
escapes `get_balance_history` instead of yielding the empty frame — while
the same read with a healthy backend returns the empty frame for an empty
store, and a save whose backend fails is caught and returns normally, as
the claim says. -/
theorem c5_read_error_escapes :
    getBalanceHistoryRun [] 0 30 (Except.error SqlError.lockTimeout) =
      Except.error (PyExc.pandasDatabaseError SqlError.lockTimeout) ∧
    getBalanceHistoryRun [] 0 30 (Except.ok ()) = Except.ok [] ∧
    saveBalanceRun [] 0 1 2 (Except.error SqlError.lockTimeout) =
      Except.ok [] :=
  ⟨rfl, rfl, rfl⟩

/-- Claim C6.  `save_balance` appends exactly one row whose timestamp is the
current time and whose `total_balance` is `spot_total + futures_total`, for
every rational input (negative values included), and the call never raises
(every backend outcome yields `.ok`). -/
theorem saveBalance_appends_one_row (st : List Row) (now : Timestamp)
    (sp fu : ℚ) :
    (saveBalance st now sp fu).length = st.length + 1 ∧
    (∃ r, saveBalance st now sp fu = st ++ [r] ∧ r.ts = now ∧
      r.total_balance = sp + fu ∧ r.spot_balance = sp ∧
      r.futures_balance = fu) ∧
    ∀ o, ∃ st', saveBalanceRun st now sp fu o = .ok st' := by
  refine ⟨by simp [saveBalance], ⟨_, rfl, rfl, rfl, rfl, rfl⟩, fun o => ?_⟩
  cases o <;> exact ⟨_, rfl⟩

/-! ### Helper lemmas on the aggregation pipeline -/

lemma mem_sortByDate {l : List QRow} {q : QRow} : q ∈ sortByDate l ↔ q ∈ l :=
  List.mem_insertionSort _

lemma mem_floorFilter_le {l : List QRow} {q : QRow} (h : q ∈ floorFilter l) :
    startDay ≤ q.date :=
  of_decide_eq_true (List.mem_filter.mp h).2

lemma mem_chartInput_floor {l : List QRow} {q : QRow} (hq : q ∈ chartInput l) :
    q ∈ floorFilter l := by
  unfold chartInput zeroFilter at hq
  dsimp only at hq
  split at hq
  · exact mem_sortByDate.mp hq
  · exact mem_sortByDate.mp (List.mem_filter.mp hq).1

lemma dailyStats_date_iff (l : List QRow) (d : Nat) :
    (∃ r ∈ dailyStats l, r.date = d) ↔ ∃ q ∈ chartInput l, q.date = d := by
  unfold dailyStats daysOf
  constructor
  · rintro ⟨r, hr, hdate⟩
    obtain ⟨d', hd', rfl⟩ := List.mem_map.mp hr
    have hd'' : d' ∈ (chartInput l).map QRow.date := by
      have := (List.mem_insertionSort (· ≤ ·)).mp hd'
      exact List.mem_dedup.mp this
    obtain ⟨q, hq, hqd⟩ := List.mem_map.mp hd''
    exact ⟨q, hq, by simpa [mkDaily] using hdate ▸ hqd⟩
  · rintro ⟨q, hq, rfl⟩
    refine ⟨mkDaily (chartInput l) q.date, List.mem_map.mpr ⟨q.date, ?_, rfl⟩, rfl⟩
    exact (List.mem_insertionSort (· ≤ ·)).mpr
      (List.mem_dedup.mpr (List.mem_map.mpr ⟨q, hq, rfl⟩))

lemma dailyStats_date_ge {l : List QRow} {r : DailyRecord}
    (hr : r ∈ dailyStats l) : startDay ≤ r.date := by
  obtain ⟨q, hq, hqd⟩ := (dailyStats_date_iff l r.date).mp ⟨r, hr, rfl⟩
  exact hqd ▸ mem_floorFilter_le (mem_chartInput_floor hq)

lemma chartInput_of_pos (l : List QRow)
    (h : ∃ q ∈ floorFilter l, 0 < q.futures_balance) :
    chartInput l =
      (sortByDate (floorFilter l)).filter (fun q => 0 < q.futures_balance) := by
  unfold chartInput zeroFilter
  dsimp only
  rw [if_neg]
  intro habs
  obtain ⟨q, hq, hpos⟩ := h
  have hmem : q ∈ (sortByDate (floorFilter l)).filter
      (fun q => 0 < q.futures_balance) :=
    List.mem_filter.mpr ⟨mem_sortByDate.mpr hq, decide_eq_true hpos⟩
  rw [List.isEmpty_iff.mp habs] at hmem
  exact List.not_mem_nil q hmem

lemma chartInput_of_nonpos (l : List QRow)
    (h : ∀ q ∈ floorFilter l, q.futures_balance ≤ 0) :
    chartInput l = sortByDate (floorFilter l) := by
  unfold chartInput zeroFilter
  dsimp only
  rw [if_pos]
  refine List.isEmpty_iff.mpr (List.filter_eq_nil_iff.mpr ?_)
  intro q hq
  simp only [decide_eq_true_eq]
  exact not_lt.mpr (h q (mem_sortByDate.mp hq))

lemma foldl_min_all_zero :
    ∀ (xs : List ℚ) (a : ℚ), (∀ x ∈ xs, x = 0) → a = 0 → xs.foldl min a = 0
  | [], _, _, ha => ha
  | x :: xs, a, h, ha => by
    rw [List.foldl_cons]
    refine foldl_min_all_zero xs (min a x) (fun y hy => h y (List.mem_cons_of_mem _ hy)) ?_
    rw [ha, h x (List.mem_cons_self x xs)]
    exact min_self 0

lemma foldl_max_all_zero :
    ∀ (xs : List ℚ) (a : ℚ), (∀ x ∈ xs, x = 0) → a = 0 → xs.foldl max a = 0
  | [], _, _, ha => ha
  | x :: xs, a, h, ha => by
    rw [List.foldl_cons]
    refine foldl_max_all_zero xs (max a x) (fun y hy => h y (List.mem_cons_of_mem _ hy)) ?_
    rw [ha, h x (List.mem_cons_self x xs)]
    exact max_self 0

lemma listMin_all_zero (g : List ℚ) (h : ∀ x ∈ g, x = 0) : listMin g = 0 := by
  cases g with
  | nil => rfl
  | cons x xs =>
    exact foldl_min_all_zero xs x (fun y hy => h y (List.mem_cons_of_mem _ hy))
      (h x (List.mem_cons_self x xs))

lemma listMax_all_zero (g : List ℚ) (h : ∀ x ∈ g, x = 0) : listMax g = 0 := by
  cases g with
  | nil => rfl
  | cons x xs =>
    exact foldl_max_all_zero xs x (fun y hy => h y (List.mem_cons_of_mem _ hy))
      (h x (List.mem_cons_self x xs))

lemma headD_all_zero (g : List ℚ) (h : ∀ x ∈ g, x = 0) : g.headD 0 = 0 := by
  cases g with
  | nil => rfl
  | cons x xs => exact List.headD_cons.trans (h x (List.mem_cons_self x xs))

lemma getLastD_all_zero :
    ∀ (g : List ℚ) (a : ℚ), (∀ x ∈ g, x = 0) → a = 0 → g.getLastD a = 0
  | [], _, _, ha => ha
  | x :: xs, _, h, _ => by
    rw [List.getLastD_cons]
    exact getLastD_all_zero xs x (fun y hy => h y (List.mem_cons_of_mem _ hy))
      (h x (List.mem_cons_self x xs))

lemma mkDaily_all_zero (l : List QRow) (d : Nat)
    (h : ∀ q ∈ l, q.futures_balance = 0) :
    (mkDaily l d).min_balance = 0 ∧ (mkDaily l d).max_balance = 0 ∧
    (mkDaily l d).open_balance = 0 ∧ (mkDaily l d).close_balance = 0 := by
  have hg : ∀ x ∈ (dayGroup l d).map QRow.futures_balance, x = 0 := by
    intro x hx
    obtain ⟨q, hq, rfl⟩ := List.mem_map.mp hx
    exact h q (List.mem_filter.mp hq).1
  exact ⟨listMin_all_zero _ hg, listMax_all_zero _ hg, headD_all_zero _ hg,
    getLastD_all_zero _ 0 hg rfl⟩

/-- Claim C1, amended.  The zero-balance filter of `update_graph` acts on the
whole frame at once, with a whole-frame emptiness guard: when some in-range
snapshot has a positive futures balance, exactly the days owning a positive
snapshot appear in the output (a day whose snapshots are all `<= 0` is
dropped); only when every in-range snapshot is `<= 0` is nothing dropped,
and then every day appears and an all-zero day reports
`min = max = open = close = 0`. -/
theorem zeroFilter_global_spec (l : List QRow) :
    ((∃ q ∈ floorFilter l, 0 < q.futures_balance) →
      ∀ d : Nat, (∃ r ∈ dailyStats l, r.date = d) ↔
        ∃ q ∈ floorFilter l, q.date = d ∧ 0 < q.futures_balance) ∧
    ((∀ q ∈ floorFilter l, q.futures_balance ≤ 0) →
      ∀ d : Nat, (∃ r ∈ dailyStats l, r.date = d) ↔
        ∃ q ∈ floorFilter l, q.date = d) ∧
    ((∀ q ∈ floorFilter l, q.futures_balance = 0) →
      ∀ r ∈ dailyStats l, r.min_balance = 0 ∧ r.max_balance = 0 ∧
        r.open_balance = 0 ∧ r.close_balance = 0) := by
  refine ⟨?_, ?_, ?_⟩
  · intro h d
    rw [dailyStats_date_iff, chartInput_of_pos l h]
    constructor
    · rintro ⟨q, hq, rfl⟩
      have hmf := List.mem_filter.mp hq
      exact ⟨q, mem_sortByDate.mp hmf.1, rfl, of_decide_eq_true hmf.2⟩
    · rintro ⟨q, hq, rfl, hps⟩
      exact ⟨q, List.mem_filter.mpr ⟨mem_sortByDate.mpr hq, decide_eq_true hps⟩,
        rfl⟩
  · intro h d
    rw [dailyStats_date_iff, chartInput_of_nonpos l h]
    constructor
    · rintro ⟨q, hq, rfl⟩
      exact ⟨q, mem_sortByDate.mp hq, rfl⟩
    · rintro ⟨q, hq, rfl⟩
      exact ⟨q, mem_sortByDate.mpr hq, rfl⟩
  · intro h r hr
    unfold dailyStats at hr
    obtain ⟨d, _hd, rfl⟩ := List.mem_map.mp hr
    exact mkDaily_all_zero _ d fun q hq => h q (mem_chartInput_floor hq)

/-- Claim C1 witness: on the two-day fixture, day 2025-08-01 appears in the
output because it owns a positive snapshot. -/
theorem zeroFilter_global_spec_witness :
    ∃ q ∈ floorFilter exC1, q.date = startDay ∧ 0 < q.futures_balance :=
  ((zeroFilter_global_spec exC1).1 (by decide) startDay).mp (by decide)

/-- Claim C8.  For every store content, clock and period setting (including
"all time"), the aggregation's day-groups contain only snapshots at or after
the configured floor date: every grouped snapshot and every output record is
dated `>= 2025-08-01`, and a snapshot whose timestamp is strictly before
midnight of the floor date contributes no day to the output — in particular
2025-07-31 never appears. -/
theorem floor_date_excludes (st : List Row) (now : Timestamp)
    (period : Option Nat) :
    (∀ q ∈ chartInput (getBalanceHistory st now (periodLookback period)),
      startDay ≤ q.date) ∧
    (∀ rec ∈ dailyStats (getBalanceHistory st now (periodLookback period)),
      startDay ≤ rec.date) ∧
    (∀ ts : Timestamp, ts < midnight startDay →
      ∀ q ∈ chartInput (getBalanceHistory st now (periodLookback period)),
        q.date ≠ dateOf ts) ∧
    (∀ rec ∈ dailyStats (getBalanceHistory st now (periodLookback period)),
      rec.date ≠ dateCode 2025 7 31) := by
  refine ⟨?_, ?_, ?_, ?_⟩
  · exact fun q hq => mem_floorFilter_le (mem_chartInput_floor hq)
  · exact fun rec hrec => dailyStats_date_ge hrec
  · intro ts hts q hq
    have h1 : startDay ≤ q.date := mem_floorFilter_le (mem_chartInput_floor hq)
    have h2 : dateOf ts < startDay := by
      have hpos : 0 < secondsPerDay := by norm_num [secondsPerDay]
      exact (Nat.div_lt_iff_lt_mul hpos).mpr hts
    omega
  · intro rec hrec
    have h1 : startDay ≤ rec.date := dailyStats_date_ge hrec
    have h2 : dateCode 2025 7 31 < startDay := by decide
    omega

/-- Claim C8 witness: with one positive snapshot just after the floor, the
snapshot's day-group key is at or after the floor. -/
theorem floor_date_excludes_witness :
    startDay ≤ (⟨startDay, 0, 50⟩ : QRow).date :=
  (floor_date_excludes [⟨midnight startDay + 100, 0, 50, 50⟩]
      (midnight startDay + 200) none).1 ⟨startDay, 0, 50⟩ (by decide)

/-- Claim C3, amended.  The synthetic all-zero record dated "now" is produced
exactly in the non-empty-but-fully-filtered case: when the query returns at
least one row and the floor-date filter removes them all, `update_graph`
charts the single record `(now, 0, 0, 0, 0)`.  (On an empty query result it
returns the "no data" figure instead — see the counterexample.) -/
theorem updateGraph_synthetic_when_filtered_out (st : List Row)
    (now : Timestamp) (period : Option Nat)
    (h1 : getBalanceHistory st now (periodLookback period) ≠ [])
    (h2 : floorFilter (getBalanceHistory st now (periodLookback period)) = []) :
    updateGraphData st now period = some [⟨dateOf now, 0, 0, 0, 0⟩] := by
  have hne : (getBalanceHistory st now (periodLookback period)).isEmpty = false :=
    List.isEmpty_eq_false.mpr h1
  have hstats :
      dailyStats (getBalanceHistory st now (periodLookback period)) = [] := by
    unfold dailyStats chartInput daysOf
    rw [h2]
    rfl
  simp [updateGraphData, hne, hstats]

/-- Claim C3 witness: a store holding only a pre-floor snapshot (2025-07-31)
within the lookback yields the single synthetic zero record dated "now". -/
theorem updateGraph_synthetic_witness :
    updateGraphData [⟨midnight (dateCode 2025 7 31), 0, 5, 5⟩]
        (midnight (dateCode 2025 8 10)) none =
      some [⟨dateCode 2025 8 10, 0, 0, 0, 0⟩] :=
  updateGraph_synthetic_when_filtered_out
    [⟨midnight (dateCode 2025 7 31), 0, 5, 5⟩]
    (midnight (dateCode 2025 8 10)) none (by decide) (by decide)

/-- Claim C7.  Every position returned by `get_futures_positions` has a
non-zero amount; its `roe` is `unrealized / (abs(amount) * entry) * 100`
when entry price and amount are both non-zero (and the denominator is then
non-zero, so the guard keeps the division away from zero), and 0 when entry
price or amount is zero. -/
theorem getFuturesPositions_roe_guarded (positions : List RawPos)
    (prices : List (String × ℚ)) (p : PositionView)
    (hp : p ∈ getFuturesPositions positions prices) :
    p.positionAmt ≠ 0 ∧
    (p.entryPrice ≠ 0 ∧ p.positionAmt ≠ 0 →
      |p.positionAmt| * p.entryPrice ≠ 0) ∧
    (p.entryPrice ≠ 0 ∧ p.positionAmt ≠ 0 →
      p.roe = p.unRealizedProfit / (|p.positionAmt| * p.entryPrice) * 100) ∧
    (p.entryPrice = 0 ∨ p.positionAmt = 0 → p.roe = 0) := by
  rw [getFuturesPositions] at hp
  obtain ⟨pos, _hmem, hf⟩ := List.mem_filterMap.mp hp
  dsimp only at hf
  by_cases h0 : pos.positionAmt = 0
  · rw [if_pos h0] at hf
    exact Option.noConfusion hf
  · rw [if_neg h0] at hf
    obtain rfl := Option.some.inj hf
    refine ⟨h0, fun ⟨he, ha⟩ => mul_ne_zero (abs_ne_zero.mpr ha) he, ?_, ?_⟩
    · intro ⟨he, _⟩
      dsimp only at he ⊢
      rw [if_pos ⟨he, h0⟩, ratAbs_eq_abs]
    · rintro (he | ha)
      · dsimp only at he ⊢
        rw [if_neg (fun hc => hc.1 he)]
      · dsimp only at ha
        exact absurd ha h0

/-- Claim C7 witness: a long 2-contract position entered at 50 with 10
unrealized profit has `roe = 10 / (|2| * 50) * 100`. -/
theorem getFuturesPositions_roe_witness :
    (⟨"BTCUSDT", 2, "BOTH", 10, 50, 60, 120, 10, 5⟩ : PositionView).roe =
      (⟨"BTCUSDT", 2, "BOTH", 10, 50, 60, 120, 10, 5⟩ : PositionView).unRealizedProfit /
        (|(⟨"BTCUSDT", 2, "BOTH", 10, 50, 60, 120, 10, 5⟩ : PositionView).positionAmt| *
          (⟨"BTCUSDT", 2, "BOTH", 10, 50, 60, 120, 10, 5⟩ : PositionView).entryPrice) * 100 :=
  (getFuturesPositions_roe_guarded [⟨"BTCUSDT", 2, 50, 10, 5, "BOTH"⟩]
      [("BTCUSDT", 60)] _
      (by simp [getFuturesPositions, List.filterMap, List.lookup, ratAbs,
            ratTrunc]
          norm_num)).2.2.1 (by decide)

lemma foldl_saves_append :
    ∀ (saves : List (Timestamp × ℚ × ℚ)) (st : List Row),
      saves.foldl (fun st s => saveBalance st s.1 s.2.1 s.2.2) st =
        st ++ saves.map (fun s => ⟨s.1, s.2.1, s.2.2, s.2.1 + s.2.2⟩)
  | [], st => by simp
  | a :: saves, st => by
    rw [List.foldl_cons, foldl_saves_append saves]
    simp [saveBalance]

lemma runSaves_eq_map (saves : List (Timestamp × ℚ × ℚ)) :
    runSaves saves =
      saves.map (fun s => ⟨s.1, s.2.1, s.2.2, s.2.1 + s.2.2⟩) := by
  rw [runSaves, foldl_saves_append]
  simp

/-- Claim C2, amended.  For a sequence of `save(spot, futures)` calls made
with nondecreasing clock readings, `get_balance_history(N)` returns exactly
the snapshots with `timestamp >= now - N days`, in save order (ascending
timestamp; ties on the calendar date keep insertion order), each record
carrying the calendar date and the `spot_balance` and `futures_balance`
passed to the save that created it; the stored row's `total_balance` equals
`spot + futures`, but the query does not return that column (see the
counterexample). -/
theorem getBalanceHistory_query_since (saves : List (Timestamp × ℚ × ℚ))
    (now : Timestamp) (lookbackDays : Nat)
    (hmono : List.Chain' (· ≤ ·) (saves.map Prod.fst)) :
    getBalanceHistory (runSaves saves) now lookbackDays =
      (saves.filter (fun s => now - lookbackDays * secondsPerDay ≤ s.1)).map
        (fun s => ⟨dateOf s.1, s.2.1, s.2.2⟩) ∧
    ∀ r ∈ runSaves saves,
      r.total_balance = r.spot_balance + r.futures_balance := by
  have hmap := runSaves_eq_map saves
  constructor
  · rw [getBalanceHistory, hmap, List.filter_map]
    have hp2 : List.Pairwise (fun s t : Timestamp × ℚ × ℚ => s.1 ≤ t.1) saves :=
      List.pairwise_map.mp (List.chain'_iff_pairwise.mp hmono)
    have hp3 := hp2.filter
      ((fun r : Row => now - lookbackDays * secondsPerDay ≤ r.ts) ∘
        (fun s : Timestamp × ℚ × ℚ =>
          (⟨s.1, s.2.1, s.2.2, s.2.1 + s.2.2⟩ : Row)))
    have hsorted : List.Sorted (fun a b : Row => dateOf a.ts ≤ dateOf b.ts)
        ((saves.filter
            ((fun r : Row => now - lookbackDays * secondsPerDay ≤ r.ts) ∘
              (fun s => ⟨s.1, s.2.1, s.2.2, s.2.1 + s.2.2⟩))).map
          (fun s => ⟨s.1, s.2.1, s.2.2, s.2.1 + s.2.2⟩)) :=
      List.pairwise_map.mpr (hp3.imp fun h => Nat.div_le_div_right h)
    rw [List.Sorted.insertionSort_eq hsorted, List.map_map]
    rfl
  · intro r hr
    rw [hmap] at hr
    obtain ⟨s, _, rfl⟩ := List.mem_map.mp hr
    rfl

/-- Claim C2 witness: two saves a minute apart, queried with a 30-day
lookback. -/
theorem getBalanceHistory_query_since_witness :
    getBalanceHistory (runSaves [(ts0, 3, 4), (ts0 + 60, 1, 2)])
        (ts0 + 120) 30 =
      ([((ts0 : Timestamp), (3 : ℚ), (4 : ℚ)), (ts0 + 60, 1, 2)].filter
          (fun s => ts0 + 120 - 30 * secondsPerDay ≤ s.1)).map
        (fun s => ⟨dateOf s.1, s.2.1, s.2.2⟩) :=
  (getBalanceHistory_query_since [(ts0, 3, 4), (ts0 + 60, 1, 2)] (ts0 + 120)
      30 (by simp [List.chain'_cons])).1

/-- Claim C4.  A single in-range day holding exactly three snapshots with
futures balances `[100, 150, 120]` in timestamp order aggregates to exactly
one record, with exactly the five fields of `DailyRecord`:
`min = 100, max = 150, open = 100` (first by timestamp) and `close = 120`
(last by timestamp), whatever the spot balances. -/
theorem dailyStats_single_day_ohlc (d : Nat) (hd : startDay ≤ d)
    (s1 s2 s3 : ℚ) :
    dailyStats [⟨d, s1, 100⟩, ⟨d, s2, 150⟩, ⟨d, s3, 120⟩] =
      [⟨d, 100, 150, 100, 120⟩] := by
  have hff : floorFilter [⟨d, s1, 100⟩, ⟨d, s2, 150⟩, ⟨d, s3, 120⟩] =
      [⟨d, s1, 100⟩, ⟨d, s2, 150⟩, ⟨d, s3, 120⟩] := by
    simp [floorFilter, hd]
  have hsort : sortByDate [(⟨d, s1, 100⟩ : QRow), ⟨d, s2, 150⟩, ⟨d, s3, 120⟩] =
      [⟨d, s1, 100⟩, ⟨d, s2, 150⟩, ⟨d, s3, 120⟩] := by
    simp [sortByDate, List.insertionSort, List.orderedInsert]
  have hci : chartInput [⟨d, s1, 100⟩, ⟨d, s2, 150⟩, ⟨d, s3, 120⟩] =
      [⟨d, s1, 100⟩, ⟨d, s2, 150⟩, ⟨d, s3, 120⟩] := by
    rw [chartInput, hff, hsort, zeroFilter]
    norm_num
  rw [dailyStats, hci]
  have hdays : daysOf [(⟨d, s1, 100⟩ : QRow), ⟨d, s2, 150⟩, ⟨d, s3, 120⟩] =
      [d] := by
    simp [daysOf, List.dedup_cons_of_mem]
  rw [hdays]
  simp only [List.map_cons, List.map_nil]
  rw [mkDaily, dayGroup]
  norm_num [listMin, listMax, min_def, max_def]

/-- Claim C4 witness: the three snapshots on 2025-08-05. -/
theorem dailyStats_single_day_ohlc_witness :
    dailyStats [⟨dateCode 2025 8 5, 0, 100⟩, ⟨dateCode 2025 8 5, 0, 150⟩,
        ⟨dateCode 2025 8 5, 0, 120⟩] =
      [⟨dateCode 2025 8 5, 100, 150, 100, 120⟩] :=
  dailyStats_single_day_ohlc (dateCode 2025 8 5) (by decide) 0 0 0

/-- Claim C9.  The store is append-only: whatever the backend outcome,
`save_balance` leaves every pre-existing row in place and unchanged, at its
position — the new store is the old store plus an appended suffix. -/
theorem save_append_only (st : List Row) (now : Timestamp) (sp fu : ℚ)
    (o : Except SqlError Unit) :
    ∃ ext, saveBalanceRun st now sp fu o = .ok (st ++ ext) := by
  cases o with
  | ok _ => exact ⟨[⟨now, sp, fu, sp + fu⟩], rfl⟩
  | error e => exact ⟨[], by simp [saveBalanceRun]⟩

/-! ### Importer lemmas -/

lemma dateOf_midnight (d : Nat) : dateOf (midnight d) = d :=
  Nat.mul_div_cancel d (by norm_num [secondsPerDay])

lemma hasDate_iff {st : List Row} {d : Nat} :
    hasDate st d = true ↔ ∃ r ∈ st, dateOf r.ts = d := by
  simp [hasDate, List.any_eq_true]

lemma hasDate_add_self (st : List Row) (d : Nat) (fb sb : ℚ) :
    hasDate (addHistoricalData st d fb sb).1 d = true := by
  rw [addHistoricalData]
  split
  · assumption
  · refine hasDate_iff.mpr ⟨⟨midnight d, sb, fb, sb + fb⟩, ?_, dateOf_midnight d⟩
    exact List.mem_append_right _ (List.mem_singleton_self _)

lemma hasDate_add_mono {st : List Row} {d : Nat} (h : hasDate st d = true)
    (d' : Nat) (fb sb : ℚ) :
    hasDate (addHistoricalData st d' fb sb).1 d = true := by
  rw [addHistoricalData]
  split
  · exact h
  · obtain ⟨r, hr, hd⟩ := hasDate_iff.mp h
    exact hasDate_iff.mpr ⟨r, List.mem_append_left _ hr, hd⟩

lemma hasDate_import_mono :
    ∀ (data : List (Nat × ℚ)) (st : List Row) (d : Nat),
      hasDate st d = true → hasDate (importHistoricalData st data) d = true
  | [], _, _, h => h
  | p :: data, st, d, h =>
    hasDate_import_mono data (addHistoricalData st p.1 p.2 0).1 d
      (hasDate_add_mono h p.1 p.2 0)

lemma import_covers :
    ∀ (data : List (Nat × ℚ)) (st : List Row) (p : Nat × ℚ), p ∈ data →
      hasDate (importHistoricalData st data) p.1 = true
  | p' :: data, st, p, h => by
    cases List.mem_cons.mp h with
    | inl heq =>
      subst heq
      exact hasDate_import_mono data _ _ (hasDate_add_self st p.1 p.2 0)
    | inr hmem => exact import_covers data _ p hmem

lemma import_skips :
    ∀ (data : List (Nat × ℚ)) (st : List Row),
      (∀ p ∈ data, hasDate st p.1 = true) → importHistoricalData st data = st
  | [], _, _ => rfl
  | p :: data, st, h => by
    have hstep : (addHistoricalData st p.1 p.2 0).1 = st := by
      rw [addHistoricalData, if_pos (h p (List.mem_cons_self p data))]
    show importHistoricalData (addHistoricalData st p.1 p.2 0).1 data = st
    rw [hstep]
    exact import_skips data st fun q hq => h q (List.mem_cons_of_mem p hq)

lemma countDate_append (st ext : List Row) (d : Nat) :
    countDate (st ++ ext) d = countDate st d + countDate ext d := by
  simp [countDate, List.filter_append]

lemma countDate_of_hasDate_false {st : List Row} {d : Nat}
    (h : hasDate st d = false) : countDate st d = 0 := by
  rw [countDate, List.length_eq_zero]
  refine List.filter_eq_nil_iff.mpr fun r hr => ?_
  simp only [decide_eq_true_eq]
  intro hd
  rw [Bool.eq_false_iff] at h
  exact h (hasDate_iff.mpr ⟨r, hr, hd⟩)

lemma countDate_add_le (st : List Row) (d' : Nat) (fb sb : ℚ) (d : Nat) :
    countDate (addHistoricalData st d' fb sb).1 d ≤ max (countDate st d) 1 := by
  rw [addHistoricalData]
  split
  · exact le_max_left _ _
  · next h =>
    rw [countDate_append]
    by_cases hdd : d' = d
    · subst hdd
      have h0 : countDate st d' = 0 :=
        countDate_of_hasDate_false (Bool.not_eq_true _ ▸ Bool.of_not_eq_true h)
      rw [h0]
      have : countDate [(⟨midnight d', sb, fb, sb + fb⟩ : Row)] d' ≤ 1 :=
        List.length_filter_le _ _
      omega
    · have : countDate [(⟨midnight d', sb, fb, sb + fb⟩ : Row)] d = 0 := by
        simp [countDate, dateOf_midnight, hdd]
      rw [this]
      exact le_max_left _ _

lemma countDate_import_le :
    ∀ (data : List (Nat × ℚ)) (st : List Row) (d : Nat),
      countDate (importHistoricalData st data) d ≤ max (countDate st d) 1
  | [], st, d => le_max_left _ _
  | p :: data, st, d => by
    have h1 := countDate_import_le data (addHistoricalData st p.1 p.2 0).1 d
    have h2 := countDate_add_le st p.1 p.2 0 d
    have h3 : max (max (countDate st d) 1) 1 = max (countDate st d) 1 := by
      rw [max_assoc, max_self]
    calc countDate (importHistoricalData st (p :: data)) d
        ≤ max (countDate (addHistoricalData st p.1 p.2 0).1 d) 1 := h1
      _ ≤ max (max (countDate st d) 1) 1 := max_le_max h2 le_rfl
      _ = max (countDate st d) 1 := h3

/-- Claim C10.  The historical importer is idempotent per calendar date:
`add_historical_data` inserts (returning `True`) exactly when no stored row
shares the calendar date, otherwise it leaves the store unchanged (returning
`False`); repeating the whole import adds no rows, and a date absent before
the import ends up with at most one row. -/
theorem importHistoricalData_idempotent (st : List Row)
    (data : List (Nat × ℚ)) (d : Nat) (fb sb : ℚ) :
    ((addHistoricalData st d fb sb).2 = true ↔ ¬ ∃ r ∈ st, dateOf r.ts = d) ∧
    ((addHistoricalData st d fb sb).2 = true →
      (addHistoricalData st d fb sb).1 =
        st ++ [⟨midnight d, sb, fb, sb + fb⟩]) ∧
    ((addHistoricalData st d fb sb).2 = false →
      (addHistoricalData st d fb sb).1 = st) ∧
    importHistoricalData (importHistoricalData st data) data =
      importHistoricalData st data ∧
    countDate (importHistoricalData st data) d ≤ max (countDate st d) 1 := by
  refine ⟨?_, ?_, ?_, ?_, countDate_import_le data st d⟩
  · rw [addHistoricalData]
    split
    · next h =>
      simp only [Bool.false_eq_true, false_iff, not_not]
      exact hasDate_iff.mp h
    · next h => simp only [true_iff]
                exact fun hex => h (hasDate_iff.mpr hex)
  · rw [addHistoricalData]
    split
    · intro hc
      exact absurd hc (by simp)
    · intro _
      rfl
  · rw [addHistoricalData]
    split
    · intro _
      rfl
    · intro hc
      exact absurd hc (by simp)
  · exact import_skips data _ fun p hp => import_covers data st p hp

/-- Claim C10 witness: importing a date into an empty store inserts
(returns `True`). -/
theorem importHistoricalData_idempotent_witness :
    (addHistoricalData [] (dateCode 2025 8 1) 110 0).2 = true :=
  (importHistoricalData_idempotent [] [(dateCode 2025 8 1, 110)]
      (dateCode 2025 8 1) 110 0).1.mpr (by decide)

end CatClan
